import Mathlib

/-!
Verification of the `winaudio` crate (Windows waveform-audio playback).

Shallow embedding of the crate's pure/stateful logic:
* `ByteStream` models a seekable byte source (`std::fs::File` through the
  `Read + Seek` traits); `Read::read` on a file returns up to the requested
  number of bytes and advances the cursor by the number actually read.
* `read_u16` / `read_u32` embed `util.rs`'s `BinaryRead` helpers, which call
  `read` (not `read_exact`) into a zero-initialised array, so bytes past
  end-of-stream decode as zero.
* `Format.from_wav_stream` embeds `wave/format.rs`.
* `Buffer.read` embeds `wave/buffer.rs`.
* The native driver boundary (waveOutOpen/Write/Reset/...) is modelled by
  explicit outcome environments and call traces, and the completion-signal
  protocol of `wave/out.rs` by a step relation.
-/

namespace Winaudio

/-- A seekable stream of bytes together with the current cursor position.
`data` is the full underlying content, `pos` the read cursor. -/
structure ByteStream where
  data : List Nat
  pos : Nat
  deriving DecidableEq, Repr

/-- `Read::read` into a buffer of size `n`: returns the bytes actually read
(up to `n`, fewer at end of stream) and advances the cursor by that count. -/
def ByteStream.readN (s : ByteStream) (n : Nat) : List Nat × ByteStream :=
  let bs := (s.data.drop s.pos).take n
  (bs, ⟨s.data, s.pos + bs.length⟩)

/-- `Seek::seek(SeekFrom::Start(off))`: positions the cursor, possibly past
the end of the data (permitted for files). -/
def ByteStream.seek (s : ByteStream) (off : Nat) : ByteStream :=
  ⟨s.data, off⟩

/-- `util.rs` `BinaryRead::read_u16`: `read` into `[0; 2]` then
`u16::from_le_bytes`; bytes not written by a short read stay zero. -/
def read_u16 (s : ByteStream) : Nat × ByteStream :=
  let r := s.readN 2
  (r.1.getD 0 0 + 256 * r.1.getD 1 0, r.2)

/-- `util.rs` `BinaryRead::read_u32`: `read` into `[0; 4]` then
`u32::from_le_bytes`; bytes not written by a short read stay zero. -/
def read_u32 (s : ByteStream) : Nat × ByteStream :=
  let r := s.readN 4
  (r.1.getD 0 0 + 256 * r.1.getD 1 0 + 65536 * r.1.getD 2 0
    + 16777216 * r.1.getD 3 0, r.2)

/-- Little-endian 16-bit value stored at byte index `i` of `data`; bytes past
the end of `data` read as zero (matching `read` into a zeroed buffer). -/
def le16At (data : List Nat) (i : Nat) : Nat :=
  data.getD i 0 + 256 * data.getD (i + 1) 0

/-- Little-endian 32-bit value stored at byte index `i` of `data`; bytes past
the end of `data` read as zero. -/
def le32At (data : List Nat) (i : Nat) : Nat :=
  data.getD i 0 + 256 * data.getD (i + 1) 0 + 65536 * data.getD (i + 2) 0
    + 16777216 * data.getD (i + 3) 0

/-- Numeric values of the `Tag` enumeration of `wave/format.rs` (the
`WAVE_FORMAT_*` enumerants, whose numbers come from the external `winapi`
crate's `mmreg.h` bindings).  The development only depends on: `0`
(`Tag::Unknown`) and `1` (`Tag::Pcm`) being variants, and `0xFFFE`
(`WAVE_FORMAT_EXTENSIBLE`, which the enumeration deliberately omits) not
being one; the listed subset of the 265 variants is the contiguous head of
the table plus the two variants with in-repo literal values. -/
def knownTagValues : List Nat :=
  [0x0000, 0x0001, 0x0002, 0x0003, 0x0004, 0x0005, 0x0006, 0x0007, 0x0008,
   0x0009, 0x000A, 0x000B, 0x0010, 0x0011, 0x0012, 0x0013, 0x0014, 0x0015,
   0x0016, 0x0017, 0x0018, 0x0019, 0x001A, 0x0020, 0x0021, 0x0022, 0x0023,
   0x0024, 0x0025, 0x0026, 0x0027, 0x0028, 0x0030, 0x0031, 0x0032,
   0x6C61, 0x704F]

/-- `Tag::try_from` (generated by `enum_with_try_from!`): succeeds exactly on
the values of the enumeration's variants, returning the matching variant
(represented here by its numeric value), and fails otherwise. -/
def Tag.tryFrom (v : Nat) : Option Nat :=
  if v ∈ knownTagValues then some v else none

/-- The decode failure of `Format::from_wav_stream`: the
`io::ErrorKind::InvalidData` error "unknown format tag". -/
inductive DecodeError where
  | unknownTag (v : Nat)
  deriving DecidableEq, Repr

/-- `wave/format.rs` `Format`: the six canonical fields of a WAVEFORMATEX
record (the tag is represented by its numeric value). -/
structure Format where
  format_tag : Nat
  channels : Nat
  samples_per_sec : Nat
  avg_bytes_per_sec : Nat
  block_align : Nat
  bits_per_sample : Nat
  deriving DecidableEq, Repr

/-- `Format::from_wav_stream`: seek to `offset`, then read, little-endian and
in this order, tag (`u16`, converted through `Tag::try_from`, failing on an
unrecognised value), channels (`u16`), samples/sec (`u32`), avg bytes/sec
(`u32`), block align (`u16`), bits/sample (`u16`). -/
def Format.from_wav_stream (s : ByteStream) (offset : Nat) :
    Except DecodeError Format :=
  let s0 := s.seek offset
  let rtag := read_u16 s0
  match Tag.tryFrom rtag.1 with
  | none => Except.error (DecodeError.unknownTag rtag.1)
  | some tag =>
    let rch := read_u16 rtag.2
    let rsps := read_u32 rch.2
    let rabs := read_u32 rsps.2
    let rba := read_u16 rabs.2
    let rbps := read_u16 rba.2
    Except.ok
      { format_tag := tag
        channels := rch.1
        samples_per_sec := rsps.1
        avg_bytes_per_sec := rabs.1
        block_align := rba.1
        bits_per_sample := rbps.1 }

/-- `wave/buffer.rs` `Buffer`: the owned byte storage (of fixed capacity)
plus the header field `dwBufferLength` recording the bytes last filled. -/
structure Buffer where
  dwBufferLength : Nat
  buffer : List Nat
  deriving DecidableEq, Repr

/-- `Buffer::read`: reads up to the storage's capacity from the stream,
zeroes every byte of the storage past the bytes read, records the number of
bytes read in `dwBufferLength`, and returns whether the storage was filled
completely (`read == self.buffer.len()`). -/
def Buffer.read (b : Buffer) (s : ByteStream) : Bool × Buffer × ByteStream :=
  let r := s.readN b.buffer.length
  (r.1.length == b.buffer.length,
   ⟨r.1.length, r.1 ++ List.replicate (b.buffer.length - r.1.length) 0⟩,
   r.2)

/-- `error.rs` `Error`: the crate's error enumeration (the numeric
`MMSYSERR_*`/`WAVERR_*` codes of its variants are irrelevant here, only the
variants themselves). -/
inductive Error where
  | Error
  | BadDeviceId
  | NotEnabled
  | Allocated
  | InvalidHandle
  | NoDriver
  | NoMemory
  | NotSupported
  | BadErrorNumber
  | InvalidFlag
  | InvalidParam
  | HandleBusy
  | InvalidAlias
  | BadDatabase
  | KeyNotFound
  | ReadError
  | WriteError
  | DeleteError
  | ValueNotFound
  | NoDriverCallback
  | MoreData
  | BadFormat
  | StillPlaying
  | Unprepared
  | Sync
  deriving DecidableEq, Repr

/-- Outcome of a call that may panic instead of returning. -/
inductive PanicOr (α : Type) where
  | panicked (msg : String)
  | ok (v : α)
  deriving DecidableEq, Repr

/-- An `f32` gain as received by `Out::set_volume`: NaN, one of the two
infinities, or a finite value — every finite `f32` is an exact rational, so
the finite case carries that rational. -/
inductive F32 where
  | nan
  | posInf
  | negInf
  | finite (q : ℚ)
  deriving DecidableEq, Repr

/-- `f32` `<` against an exactly representable constant (`0.0`, `1.0`):
NaN is unordered, so every comparison involving it is `false`; comparisons
of finite values are exact. -/
def F32.ltQ : F32 → ℚ → Bool
  | F32.nan, _ => false
  | F32.posInf, _ => false
  | F32.negInf, _ => true
  | F32.finite q, c => q < c

/-- `f32` `>` against an exactly representable constant (`0.0`, `1.0`):
NaN is unordered, so every comparison involving it is `false`. -/
def F32.gtQ : F32 → ℚ → Bool
  | F32.nan, _ => false
  | F32.posInf, _ => true
  | F32.negInf, _ => false
  | F32.finite q, c => c < q

/-- Rust's saturating `as u32` cast applied to a finite `f32` value:
truncates toward zero, clamping below `0` to `0` and above `u32::MAX` to
`u32::MAX` (for the values that reach it here the value is non-negative, so
truncation toward zero is the floor). -/
def f32ToU32 (q : ℚ) : Nat :=
  (max 0 (min 4294967295 (Int.floor q))).toNat

/-- `(x * 0xffff as f32) as u32`: the `f32` multiplication rounds the exact
rational product `q * 65535` with the IEEE round-to-nearest-even map, which
this model abstracts as the parameter `rnd` (the theorems assume of it only
monotonicity and exactness at the two representable endpoint products `0`
and `65535`); `as u32` then truncates with saturation, taking NaN to `0`
and the infinities to `0` / `u32::MAX`. -/
def scaleGain (rnd : ℚ → ℚ) : F32 → Nat
  | F32.nan => 0
  | F32.negInf => 0
  | F32.posInf => 4294967295
  | F32.finite q => f32ToU32 (rnd (q * 65535))

/-- `Out::set_volume`: the guard
`left < 0.0 || left > 1.0 || right < 0.0 || right > 1.0` returns
`Error::InvalidParam` before any native call; otherwise both gains are
scaled by `scaleGain` and `waveOutSetVolume` is called with
`left | (right << 16)` (the packed word is returned here as the `ok`
payload; an `error` result means the native call was never made).  Because
the guard uses `f32` comparisons, it is `false` for NaN gains, which are
therefore accepted. -/
def Out.set_volume (rnd : ℚ → ℚ) (left right : F32) : Except Error Nat :=
  if left.ltQ 0 || left.gtQ 1 || right.ltQ 0 || right.gtQ 1 then
    Except.error Error.InvalidParam
  else
    Except.ok (Nat.lor (scaleGain rnd left)
      (Nat.shiftLeft (scaleGain rnd right) 16))

/-- Native calls `Out::open` can issue, in the order issued. -/
inductive OpenCall where
  | waveOutOpen
  | waveOutPrepareHeader (k : Nat)
  | waveOutClose
  deriving DecidableEq, Repr

/-- Outcomes the native layer gives to `Out::open`: the result of
`waveOutOpen` and of the `k`-th `prepare_block` call (`none` = success). -/
structure OpenEnv where
  openResult : Option Error
  prepareResult : Nat → Option Error

/-- `Out::open`'s control flow against the native layer: open the device;
on success prepare the first and then the second buffer, and if either
preparation fails, close the device handle (`waveOutClose`) and return the
preparation error.  Returns the result and the list of native calls made. -/
def Out.openSeq (env : OpenEnv) : Except Error Unit × List OpenCall :=
  match env.openResult with
  | some e => (Except.error e, [OpenCall.waveOutOpen])
  | none =>
    match env.prepareResult 0 with
    | some e =>
      (Except.error e,
       [OpenCall.waveOutOpen, OpenCall.waveOutPrepareHeader 0,
        OpenCall.waveOutClose])
    | none =>
      match env.prepareResult 1 with
      | some e =>
        (Except.error e,
         [OpenCall.waveOutOpen, OpenCall.waveOutPrepareHeader 0,
          OpenCall.waveOutPrepareHeader 1, OpenCall.waveOutClose])
      | none =>
        (Except.ok (),
         [OpenCall.waveOutOpen, OpenCall.waveOutPrepareHeader 0,
          OpenCall.waveOutPrepareHeader 1])

/-- Native calls the teardown (`impl Drop for Out`) can issue. -/
inductive DropCall where
  | waveOutReset
  | waveOutUnprepareHeader (k : Nat)
  | waveOutClose
  deriving DecidableEq, Repr

/-- Outcomes the native layer gives to the teardown:`none` = success. -/
structure DropEnv where
  resetResult : Option Error
  unprepareResult : Nat → Option Error
  closeResult : Option Error

/-- `impl Drop for Out`: `self.stop().expect(...)` — a `waveOutReset`
failure panics with the `expect` message and nothing further runs; on
success, each buffer whose header still has `WHDR_PREPARED` set is
unprepared (failures only logged), then `waveOutClose` is called (failure
only logged).  Returns the overall outcome and the native calls made. -/
def Out.dropSeq (env : DropEnv) (prepared0 prepared1 : Bool) :
    PanicOr Unit × List DropCall :=
  match env.resetResult with
  | some _ =>
    (PanicOr.panicked "failed to stop playback prior to drop",
     [DropCall.waveOutReset])
  | none =>
    (PanicOr.ok (),
     [DropCall.waveOutReset]
       ++ (if prepared0 then [DropCall.waveOutUnprepareHeader 0] else [])
       ++ (if prepared1 then [DropCall.waveOutUnprepareHeader 1] else [])
       ++ [DropCall.waveOutClose])

/-- State of the submission handshake of `wave/out.rs`: the completion
signal (`cb_done`, the mutex-guarded boolean of `util::Event`) and the
number of buffers handed to the driver and not yet completed. -/
structure DeviceState where
  cbDone : Bool
  outstanding : Nat
  deriving DecidableEq, Repr

/-- Observable actions of the handshake: a submission
(`write_first`/`write_second`, `slot` 0 or 1) and the driver's `WOM_DONE`
completion callback. -/
inductive Action where
  | submit (slot : Nat)
  | complete
  deriving DecidableEq, Repr

/-- State right after `Out::open` returns: `(*cb_done).set()` ran ("start
ready") and nothing has been submitted. -/
def initState : DeviceState :=
  { cbDone := true, outstanding := 1 - 1 }

/-- One step of the handshake.  `submit` is `write_first`/`write_second`:
`self.wait()` blocks until `cb_done` is set — so the step is only enabled
when the signal is set — then `self.cb_done.clear()` runs and `waveOutWrite`
hands the buffer to the driver.  `complete` is the driver's asynchronous
`WOM_DONE` callback for a submitted buffer: it sets the signal. -/
inductive Step : DeviceState → Action → DeviceState → Prop
  | submit (s : DeviceState) (slot : Nat) (h : s.cbDone = true) :
      Step s (Action.submit slot) ⟨false, s.outstanding + 1⟩
  | complete (s : DeviceState) (h : 0 < s.outstanding) :
      Step s Action.complete ⟨true, s.outstanding - 1⟩

/-- A run of the handshake: `Trace s acts s'` holds when the actions in
`acts` can occur in order from state `s`, ending in state `s'`. -/
inductive Trace : DeviceState → List Action → DeviceState → Prop
  | nil (s : DeviceState) : Trace s [] s
  | cons {s s' s'' : DeviceState} {a : Action} {as' : List Action} :
      Step s a s' → Trace s' as' s'' → Trace s (a :: as') s''

/-- `Player::play`'s loop: fill the buffer of the current slot from the
stream (`Buffer::read`, which reads `read = min(capacity, remaining)` bytes
and reports `full = (read == capacity)`), submit it
(`write_first`/`write_second`), toggle the slot, and stop after the first
fill that was not full.  Returns the submissions in order as
(slot, `dwBufferLength`) pairs with slot 0 = `false`.  The buffers of `Out`
have positive capacity (`prepare_block` rounds `BUFFER_SIZE = 256 * 1024` up
to a multiple of the block alignment), which is what makes the loop
terminate on every stream. -/
def Player.playLoop (cap : Nat) (hcap : 0 < cap) (s : ByteStream)
    (bufIdx : Bool) : List (Bool × Nat) :=
  if h : ((s.data.drop s.pos).take cap).length = cap then
    (bufIdx, ((s.data.drop s.pos).take cap).length) ::
      Player.playLoop cap hcap
        ⟨s.data, s.pos + ((s.data.drop s.pos).take cap).length⟩ (!bufIdx)
  else
    [(bufIdx, ((s.data.drop s.pos).take cap).length)]
termination_by s.data.length - s.pos
decreasing_by
  simp only [List.length_take, List.length_drop] at h ⊢
  omega

/-- `Player::play` (the fill/submit part, after the device is open): the
loop starts at slot 0 (`buf_idx = false`). -/
def Player.play (cap : Nat) (hcap : 0 < cap) (s : ByteStream) :
    List (Bool × Nat) :=
  Player.playLoop cap hcap s false

/-- The bytes of the literal marker `b"fmt "` (trailing space). -/
def fmtMarker : List Nat := [102, 109, 116, 32]

/-- `haystack[..size].windows(needle.len()).position(|w| w == needle)`: the
index of the first occurrence of `needle` as a contiguous run in `hay`. -/
def firstOcc (hay needle : List Nat) : Option Nat :=
  if hay.take needle.length = needle then some 0
  else
    match hay with
    | [] => none
    | _ :: t =>
      match firstOcc t needle with
      | some p => some (p + 1)
      | none => none

/-- One `loop` pass structure of `Player::find_string_in_file`, run with
explicit fuel because the loop need not terminate.  Each pass reads up to
512 bytes at `offset`; an empty read breaks out to the `NotFound` error
(`Except.error ()`); a found needle returns the index just past it;
otherwise `offset += haystack_size - needle.len()` (wrapping `u64`
subtraction, modelled modulo `2 ^ 64` as in a release build) and the file is
re-positioned at `offset`.  `none` means the fuel ran out before the loop
finished. -/
def Player.findLoop (data needle : List Nat) (offset : Nat) :
    Nat → Option (Except Unit Nat)
  | 0 => none
  | fuel + 1 =>
    let haystack := (data.drop offset).take 512
    if haystack.length = 0 then some (Except.error ())
    else
      match firstOcc haystack needle with
      | some pos => some (Except.ok (offset + pos + needle.length))
      | none =>
        Player.findLoop data needle
          ((offset + haystack.length + (2 ^ 64 - needle.length)) % 2 ^ 64)
          fuel

/-- `Player::find_string_in_file` for the `b"fmt "` marker, from the start
of the file, with the given fuel. -/
def Player.find_string_in_file (data : List Nat) (fuel : Nat) :
    Option (Except Unit Nat) :=
  Player.findLoop data fmtMarker 0 fuel

/-- Numeric values of the `Manufacturer` enumeration of `device.rs`, in
source order (the values are literals in the source). -/
def manufacturerIds : List Nat :=
  [34, 31, 42, 20, 64, 27, 47, 56, 74, 80, 52, 49, 89, 41, 45, 84, 2, 93,
   78, 43, 25, 39, 46, 38, 63, 4, 82, 32, 81, 57, 33, 36, 22, 58, 60, 88,
   83, 3, 59, 44, 1, 68, 48, 87, 62, 26, 86, 79, 90, 24, 54, 50, 40, 69,
   66, 76, 73, 29, 55, 51, 21, 35, 53, 67, 23, 30, 28, 65, 61, 85, 37]

/-- Numeric values of the `Product` enumeration of `device.rs`, in source
order (the values are literals in the source). -/
def productIds : List Nat :=
  [9, 37, 36, 34, 12, 1, 11, 10, 33, 16, 21, 17, 14, 15, 32, 35, 22, 31,
   20, 18, 19, 30, 28, 29, 26, 25, 27, 23, 24, 13, 38, 5, 4, 3, 7, 6, 2]

/-- `Capabilities::manufacturer`:
`Manufacturer::try_from(self.caps.wMid).expect("unknown manufacturer")` —
panics on a manufacturer ID outside the curated enumeration (the returned
variant is represented by its numeric value). -/
def Capabilities.manufacturer (wMid : Nat) : PanicOr Nat :=
  if wMid ∈ manufacturerIds then PanicOr.ok wMid
  else PanicOr.panicked "unknown manufacturer"

/-- `Capabilities::product`: `Product::try_from(self.caps.wPid).ok()` —
`none` for a product ID outside the curated enumeration. -/
def Capabilities.product (wPid : Nat) : Option Nat :=
  if wPid ∈ productIds then some wPid else none

example : Format.from_wav_stream ⟨[], 0⟩ 0 = Except.ok ⟨0, 0, 0, 0, 0, 0⟩ := by
  rfl

example :
    Format.from_wav_stream
      ⟨[1, 0, 2, 0, 0x40, 0x1F, 0, 0, 0, 0x7D, 0, 0, 4, 0, 16, 0], 5⟩ 0 =
      Except.ok ⟨1, 2, 8000, 32000, 4, 16⟩ := by
  rfl

example : Format.from_wav_stream ⟨[0xFE, 0xFF], 0⟩ 0 =
    Except.error (DecodeError.unknownTag 0xFFFE) := by rfl

example : Buffer.read ⟨0, [9, 9]⟩ ⟨[7], 0⟩ = (false, ⟨1, [7, 0]⟩, ⟨[7], 1⟩) := by
  decide

example : Buffer.read ⟨0, [9, 9]⟩ ⟨[7, 8, 9], 0⟩ =
    (true, ⟨2, [7, 8]⟩, ⟨[7, 8, 9], 2⟩) := by decide

theorem getD_take_drop (l : List Nat) (p i n : Nat) (h : i < n) :
    ((l.drop p).take n).getD i 0 = l.getD (p + i) 0 := by
  simp [List.getD_eq_getElem?_getD, List.getElem?_take_of_lt h,
    List.getElem?_drop]

theorem readN_eq (s : ByteStream) (n : Nat) (h : s.pos + n ≤ s.data.length) :
    s.readN n = ((s.data.drop s.pos).take n, ⟨s.data, s.pos + n⟩) := by
  simp only [ByteStream.readN, List.length_take, List.length_drop,
    Prod.mk.injEq, ByteStream.mk.injEq]
  refine ⟨trivial, trivial, ?_⟩
  omega

theorem read_u16_fst (s : ByteStream) :
    (read_u16 s).1 = le16At s.data s.pos := by
  simp only [read_u16, ByteStream.readN, le16At]
  rw [getD_take_drop _ _ _ _ (by omega : (0 : Nat) < 2),
    getD_take_drop _ _ _ _ (by omega : (1 : Nat) < 2)]
  simp

theorem read_u16_eq (s : ByteStream) (h : s.pos + 2 ≤ s.data.length) :
    read_u16 s = (le16At s.data s.pos, ⟨s.data, s.pos + 2⟩) := by
  simp only [read_u16, readN_eq s 2 h, le16At]
  rw [getD_take_drop _ _ _ _ (by omega : (0 : Nat) < 2),
    getD_take_drop _ _ _ _ (by omega : (1 : Nat) < 2)]
  simp

theorem read_u32_eq (s : ByteStream) (h : s.pos + 4 ≤ s.data.length) :
    read_u32 s = (le32At s.data s.pos, ⟨s.data, s.pos + 4⟩) := by
  simp only [read_u32, readN_eq s 4 h, le32At]
  rw [getD_take_drop _ _ _ _ (by omega : (0 : Nat) < 4),
    getD_take_drop _ _ _ _ (by omega : (1 : Nat) < 4),
    getD_take_drop _ _ _ _ (by omega : (2 : Nat) < 4),
    getD_take_drop _ _ _ _ (by omega : (3 : Nat) < 4)]
  simp

/-- C3 (counterexample): a one-byte source cannot fill a two-byte buffer
(the stream is exhausted), yet `Buffer::read` returns `false`, not the
`true` the claim states for the "stream exhausted" outcome. -/
theorem c3_counterexample :
    ([7] : List Nat).length < 2 ∧
    (Buffer.read ⟨0, [0, 0]⟩ ⟨[7], 0⟩).1 = false := by
  decide

/-- C3 (amended): for every source stream, `Buffer::read` reads
`min capacity remaining` bytes, zero-pads every storage byte beyond what was
read, records exactly the number of bytes read in `dwBufferLength`, and
returns `false` exactly when the source could not fill the buffer to
capacity (end of input) and `true` when it was filled completely — the
code's Boolean is the negation of the claim's "stream exhausted" signal. -/
theorem c3_buffer_fill (b : Buffer) (s : ByteStream) :
    (Buffer.read b s).2.1.dwBufferLength
        = min b.buffer.length (s.data.length - s.pos) ∧
    (Buffer.read b s).2.1.buffer
        = (s.data.drop s.pos).take b.buffer.length
          ++ List.replicate (b.buffer.length - (s.data.length - s.pos)) 0 ∧
    ((Buffer.read b s).1 = false ↔ s.data.length - s.pos < b.buffer.length) := by
  simp only [Buffer.read, ByteStream.readN, List.length_take,
    List.length_drop]
  refine ⟨trivial, ?_, ?_⟩
  · have : b.buffer.length - min b.buffer.length (s.data.length - s.pos)
        = b.buffer.length - (s.data.length - s.pos) := by omega
    rw [this]
  · rw [beq_eq_false_iff_ne]
    omega

/-- C4 (counterexample): an empty stream cannot supply any of the 16 bytes
of the format record, yet `Format::from_wav_stream` succeeds: the short
reads of `BinaryRead` leave the zero-initialised byte buffers untouched, the
tag decodes as `0` (`Tag::Unknown`, a valid enumerant) and every field is
zero, so a `Format` is returned rather than an error. -/
theorem c4_counterexample :
    ([] : List Nat).length < 16 ∧
    Format.from_wav_stream ⟨[], 0⟩ 0 = Except.ok ⟨0, 0, 0, 0, 0, 0⟩ :=
  ⟨by decide, by rfl⟩

/-- C4 (amended): `Format::from_wav_stream` fails with a decode error if and
only if the tag — the little-endian 16-bit value at the record offset, with
bytes past end-of-stream reading as zero — is not a known format-tag
enumerant (or, outside this pure model, the underlying read returns a
genuine I/O error, which propagates); a merely truncated/short stream does
not by itself produce an error. -/
theorem c4_decode_error_iff (s : ByteStream) (offset : Nat) :
    (∃ e, Format.from_wav_stream s offset = Except.error e) ↔
      Tag.tryFrom (le16At s.data offset) = none := by
  have h1 : (read_u16 (ByteStream.seek s offset)).1 = le16At s.data offset :=
    read_u16_fst ⟨s.data, offset⟩
  simp only [Format.from_wav_stream, h1]
  cases htag : Tag.tryFrom (le16At s.data offset) <;> simp [htag]

/-- C7: on any stream holding the full 16-byte canonical record at `offset`
whose stored tag is a known enumerant, `Format::from_wav_stream` decodes the
six fields as fixed-width little-endian integers, in the order tag,
channels, samples/sec, avg bytes/sec, block align, bits/sample, each equal
to the value encoded in the corresponding bytes of the stream. -/
theorem c7_format_roundtrip (s : ByteStream) (offset : Nat)
    (hlen : offset + 16 ≤ s.data.length)
    (htag : le16At s.data offset ∈ knownTagValues) :
    Format.from_wav_stream s offset =
      Except.ok
        { format_tag := le16At s.data offset
          channels := le16At s.data (offset + 2)
          samples_per_sec := le32At s.data (offset + 4)
          avg_bytes_per_sec := le32At s.data (offset + 8)
          block_align := le16At s.data (offset + 12)
          bits_per_sample := le16At s.data (offset + 14) } := by
  have e0 : ByteStream.seek s offset = ⟨s.data, offset⟩ := rfl
  have e1 : read_u16 ⟨s.data, offset⟩
      = (le16At s.data offset, ⟨s.data, offset + 2⟩) :=
    read_u16_eq ⟨s.data, offset⟩ (by simp; omega)
  have e2 : read_u16 ⟨s.data, offset + 2⟩
      = (le16At s.data (offset + 2), ⟨s.data, offset + 2 + 2⟩) :=
    read_u16_eq ⟨s.data, offset + 2⟩ (by simp; omega)
  have e3 : read_u32 ⟨s.data, offset + 4⟩
      = (le32At s.data (offset + 4), ⟨s.data, offset + 4 + 4⟩) :=
    read_u32_eq ⟨s.data, offset + 4⟩ (by simp; omega)
  have e4 : read_u32 ⟨s.data, offset + 8⟩
      = (le32At s.data (offset + 8), ⟨s.data, offset + 8 + 4⟩) :=
    read_u32_eq ⟨s.data, offset + 8⟩ (by simp; omega)
  have e5 : read_u16 ⟨s.data, offset + 12⟩
      = (le16At s.data (offset + 12), ⟨s.data, offset + 12 + 2⟩) :=
    read_u16_eq ⟨s.data, offset + 12⟩ (by simp; omega)
  have e6 : read_u16 ⟨s.data, offset + 14⟩
      = (le16At s.data (offset + 14), ⟨s.data, offset + 14 + 2⟩) :=
    read_u16_eq ⟨s.data, offset + 14⟩ (by simp; omega)
  simp only [Format.from_wav_stream, e0, e1, Tag.tryFrom, if_pos htag]
  simp only [e2, show offset + 2 + 2 = offset + 4 by omega, e3,
    show offset + 4 + 4 = offset + 8 by omega, e4,
    show offset + 8 + 4 = offset + 12 by omega, e5,
    show offset + 12 + 2 = offset + 14 by omega, e6]

/-- C7 (witness): a concrete 16-byte PCM record round-trips. -/
theorem c7_format_roundtrip_witness :
    Format.from_wav_stream
      ⟨[1, 0, 2, 0, 0x40, 0x1F, 0, 0, 0, 0x7D, 0, 0, 4, 0, 16, 0], 0⟩ 0 =
      Except.ok ⟨1, 2, 8000, 32000, 4, 16⟩ := by
  have h := c7_format_roundtrip
    ⟨[1, 0, 2, 0, 0x40, 0x1F, 0, 0, 0, 0x7D, 0, 0, 4, 0, 16, 0], 0⟩ 0
    (by decide) (by decide)
  exact h

/-- Packing helper for `Out::set_volume`: `a ||| (b <<< 16)` with `a` below
`2 ^ 16` packs `a` into the low 16 bits and `b` into the bits from 16 up. -/
theorem lor_shiftLeft_eq_add (a b : Nat) (ha : a < 65536) :
    Nat.lor a (Nat.shiftLeft b 16) = a + 65536 * b := by
  have hs : Nat.shiftLeft b 16 = b * 2 ^ 16 := Nat.shiftLeft_eq b 16
  rw [hs]
  apply Nat.eq_of_testBit_eq
  intro j
  have hlor : Nat.testBit (Nat.lor a (b * 2 ^ 16)) j
      = (a.testBit j || (b * 2 ^ 16).testBit j) := Nat.testBit_lor a (b * 2 ^ 16) j
  rw [hlor]
  have hadd : a + 65536 * b = 2 ^ 16 * b + a := by ring
  have hmul : b * 2 ^ 16 = 2 ^ 16 * b := by ring
  rw [hadd, hmul, Nat.testBit_mul_pow_two_add b (by omega) j,
    Nat.testBit_mul_pow_two]
  by_cases hj : j < 16
  · have h16 : ¬ 16 ≤ j := by omega
    simp [hj, h16]
  · have h16 : 16 ≤ j := by omega
    have hja : a.testBit j = false := by
      apply Nat.testBit_lt_two_pow
      calc a < 65536 := ha
        _ = 2 ^ 16 := by norm_num
        _ ≤ 2 ^ j := Nat.pow_le_pow_right (by omega) h16
    simp [hj, h16, hja]

theorem scaleGain_bound (rnd : ℚ → ℚ)
    (hmono : ∀ a b : ℚ, a ≤ b → rnd a ≤ rnd b)
    (h0 : rnd 0 = 0) (h65535 : rnd 65535 = 65535)
    (q : ℚ) (hq0 : 0 ≤ q) (hq1 : q ≤ 1) :
    scaleGain rnd (F32.finite q) ≤ 65535 := by
  have hple : rnd (q * 65535) ≤ 65535 := by
    have := hmono (q * 65535) 65535 (by nlinarith)
    rw [h65535] at this
    exact this
  have hfl : Int.floor (rnd (q * 65535)) ≤ (65535 : ℤ) := by
    have := Int.floor_le_floor hple
    simpa using this
  rw [scaleGain, f32ToU32]
  exact Int.toNat_le.mpr (by omega)

/-- C6 (counterexample): NaN gains lie outside `[0.0, 1.0]`, yet the
source's guard `left < 0.0 || left > 1.0 || ...` is false for NaN (every
`f32` comparison with NaN is false), so `set_volume(NaN, NaN)` is accepted
and `waveOutSetVolume` is called — with the packed word `0`, since
`NaN as u32` saturates to `0` — instead of returning the invalid-parameter
error the claim requires before any native call. -/
theorem c6_counterexample :
    Out.set_volume (fun q => q) F32.nan F32.nan = Except.ok 0 := by
  rfl

/-- C6 (amended): over any rounding map `rnd` for the `f32` product that is
monotone and exact at the representable endpoint products `0` and `65535`
(IEEE round-to-nearest-even is such a map), `Out::set_volume` rejects every
*comparable* gain outside `[0, 1]` — a finite value below 0 or above 1, or
an infinity, in either channel — with `Error::InvalidParam` and no native
call; but a NaN gain passes the range check and the native call is made
(NaN scales to 0).  In-range finite gains are accepted: each is scaled into
`0..=65535` and the word passed to the driver carries the left gain in its
low 16 bits and the right gain in its high 16 bits; the boundary gains
`0.0` and `1.0` scale exactly to `0` and `65535`. -/
theorem c6_set_volume (rnd : ℚ → ℚ)
    (hmono : ∀ a b : ℚ, a ≤ b → rnd a ≤ rnd b)
    (h0 : rnd 0 = 0) (h65535 : rnd 65535 = 65535) :
    (∀ (ql : ℚ) (r : F32), (ql < 0 ∨ 1 < ql) →
      Out.set_volume rnd (F32.finite ql) r
        = Except.error Error.InvalidParam) ∧
    (∀ (l : F32) (qr : ℚ), (qr < 0 ∨ 1 < qr) →
      Out.set_volume rnd l (F32.finite qr)
        = Except.error Error.InvalidParam) ∧
    (∀ l r : F32,
      (l = F32.posInf ∨ l = F32.negInf ∨ r = F32.posInf ∨ r = F32.negInf) →
      Out.set_volume rnd l r = Except.error Error.InvalidParam) ∧
    Out.set_volume rnd F32.nan F32.nan = Except.ok 0 ∧
    (∀ ql qr : ℚ, 0 ≤ ql → ql ≤ 1 → 0 ≤ qr → qr ≤ 1 →
      Out.set_volume rnd (F32.finite ql) (F32.finite qr)
        = Except.ok (scaleGain rnd (F32.finite ql)
            + 65536 * scaleGain rnd (F32.finite qr)) ∧
      scaleGain rnd (F32.finite ql) ≤ 65535 ∧
      scaleGain rnd (F32.finite qr) ≤ 65535) ∧
    scaleGain rnd (F32.finite 0) = 0 ∧
    scaleGain rnd (F32.finite 1) = 65535 := by
  refine ⟨?_, ?_, ?_, ?_, ?_, ?_, ?_⟩
  · intro ql r h
    rcases h with h | h <;>
      simp [Out.set_volume, F32.ltQ, F32.gtQ, h]
  · intro l qr h
    rcases h with h | h <;>
      cases l <;> simp [Out.set_volume, F32.ltQ, F32.gtQ, h]
  · intro l r h
    rcases h with h | h | h | h <;> subst h <;>
      simp [Out.set_volume, F32.ltQ, F32.gtQ]
  · rw [Out.set_volume]
    norm_num [F32.ltQ, F32.gtQ, scaleGain]
    decide
  · intro ql qr h0l h1l h0r h1r
    have hbl := scaleGain_bound rnd hmono h0 h65535 ql h0l h1l
    have hbr := scaleGain_bound rnd hmono h0 h65535 qr h0r h1r
    refine ⟨?_, hbl, hbr⟩
    have hguard : (F32.ltQ (F32.finite ql) 0 || F32.gtQ (F32.finite ql) 1
        || F32.ltQ (F32.finite qr) 0 || F32.gtQ (F32.finite qr) 1) = false := by
      simp only [F32.ltQ, F32.gtQ, Bool.or_eq_false_iff, decide_eq_false_iff_not]
      refine ⟨⟨⟨?_, ?_⟩, ?_⟩, ?_⟩ <;> linarith
    rw [Out.set_volume]
    simp only [hguard, Bool.false_eq_true, if_false]
    rw [lor_shiftLeft_eq_add _ _ (by omega)]
  · rw [scaleGain]
    norm_num [f32ToU32, h0]
  · rw [scaleGain]
    norm_num [f32ToU32, h65535]
    decide

/-- C6 (witness): with the identity as the (monotone, endpoint-exact)
rounding map: a finite out-of-range left gain is rejected with
`Error::InvalidParam`, and full volume `1.0` on both channels is accepted
and packs to `0xFFFFFFFF`. -/
theorem c6_set_volume_witness :
    Out.set_volume (fun q => q) (F32.finite 2) (F32.finite (1 / 2))
      = Except.error Error.InvalidParam ∧
    Out.set_volume (fun q => q) (F32.finite 1) (F32.finite 1)
      = Except.ok 4294967295 := by
  have hthm := c6_set_volume (fun q => q) (fun a b h => h) rfl rfl
  constructor
  · exact hthm.1 2 (F32.finite (1 / 2)) (Or.inr (by norm_num))
  · have he := hthm.2.2.2.2.1 1 1 (by norm_num) le_rfl (by norm_num) le_rfl
    have hs : scaleGain (fun q => q) (F32.finite 1) = 65535 :=
      hthm.2.2.2.2.2.2
    rw [he.1, hs]

/-- C9: when the native device open succeeds but the preparation of the
first or the second buffer fails, `Out::open` calls `waveOutClose` on the
freshly opened handle and returns the preparation error. -/
theorem c9_open_rollback (env : OpenEnv) (e : Error)
    (hopen : env.openResult = none)
    (hprep : env.prepareResult 0 = some e ∨
      (env.prepareResult 0 = none ∧ env.prepareResult 1 = some e)) :
    (Out.openSeq env).1 = Except.error e ∧
    OpenCall.waveOutClose ∈ (Out.openSeq env).2 := by
  rcases hprep with h0 | ⟨h0, h1⟩
  · simp [Out.openSeq, hopen, h0]
  · simp [Out.openSeq, hopen, h0, h1]

/-- C9 (witness): a failing first `prepare_block` after a successful open
yields that error and a `waveOutClose` call. -/
theorem c9_open_rollback_witness :
    (Out.openSeq ⟨none, fun k => if k = 0 then some Error.NoMemory else none⟩).1
      = Except.error Error.NoMemory ∧
    OpenCall.waveOutClose ∈
      (Out.openSeq
        ⟨none, fun k => if k = 0 then some Error.NoMemory else none⟩).2 :=
  c9_open_rollback _ Error.NoMemory rfl (Or.inl rfl)

/-- C10: for any capabilities record, a product ID outside the curated
`Product` enumeration makes `Capabilities::product` return `None`, while a
manufacturer ID outside the `Manufacturer` enumeration makes
`Capabilities::manufacturer` panic with "unknown manufacturer" — the panic
is reachable from the public interface. -/
theorem c10_capability_asymmetry (wMid wPid : Nat)
    (hm : wMid ∉ manufacturerIds) (hp : wPid ∉ productIds) :
    Capabilities.manufacturer wMid = PanicOr.panicked "unknown manufacturer" ∧
    Capabilities.product wPid = none := by
  constructor
  · simp [Capabilities.manufacturer, hm]
  · simp [Capabilities.product, hp]

/-- C10 (witness): ID `0` is in neither curated enumeration: `product`
returns `None`, `manufacturer` panics. -/
theorem c10_capability_asymmetry_witness :
    Capabilities.manufacturer 0 = PanicOr.panicked "unknown manufacturer" ∧
    Capabilities.product 0 = none :=
  c10_capability_asymmetry 0 0 (by decide) (by decide)

/-- C2 (code bug): when step 1 of teardown (`waveOutReset` inside
`self.stop()`) fails, `Drop::drop` panics through
`.expect("failed to stop playback prior to drop")` and neither unprepares
the still-prepared buffers nor closes the device — contradicting the
documented teardown contract that failures are logged and all three steps
always run.  When `waveOutReset` succeeds, all three steps do run in
order. -/
theorem c2_teardown_divergence :
    Out.dropSeq ⟨some Error.InvalidHandle, fun _ => none, none⟩ true true
      = (PanicOr.panicked "failed to stop playback prior to drop",
         [DropCall.waveOutReset]) ∧
    Out.dropSeq ⟨none, fun _ => none, none⟩ true true
      = (PanicOr.ok (),
         [DropCall.waveOutReset, DropCall.waveOutUnprepareHeader 0,
          DropCall.waveOutUnprepareHeader 1, DropCall.waveOutClose]) := by
  constructor <;> rfl

theorem trace_append {s s'' : DeviceState} {l₁ l₂ : List Action}
    (h : Trace s (l₁ ++ l₂) s'') :
    ∃ m, Trace s l₁ m ∧ Trace m l₂ s'' := by
  induction l₁ generalizing s with
  | nil => exact ⟨s, Trace.nil s, h⟩
  | cons a t ih =>
    cases h with
    | cons hstep htr =>
      obtain ⟨m, h1, h2⟩ := ih htr
      exact ⟨m, Trace.cons hstep h1, h2⟩

theorem step_inv {s s' : DeviceState} {a : Action} (h : Step s a s')
    (hs : s.outstanding + (if s.cbDone then 1 else 0) ≤ 1) :
    s'.outstanding + (if s'.cbDone then 1 else 0) ≤ 1 := by
  cases h with
  | submit slot hcb =>
    rw [hcb] at hs
    simp at hs ⊢
    omega
  | complete hout =>
    rcases Bool.eq_false_or_eq_true s.cbDone with hc | hc <;>
      rw [hc] at hs <;> simp at hs ⊢ <;> omega

theorem trace_inv {s s' : DeviceState} {l : List Action} (h : Trace s l s')
    (hs : s.outstanding + (if s.cbDone then 1 else 0) ≤ 1) :
    s'.outstanding + (if s'.cbDone then 1 else 0) ≤ 1 := by
  induction h with
  | nil => exact hs
  | cons hstep htr ih => exact ih (step_inv hstep hs)

theorem trace_cbDone_false {s s' : DeviceState} {l : List Action}
    (h : Trace s l s') (hnc : Action.complete ∉ l) (hs : s.cbDone = false) :
    s'.cbDone = false := by
  induction h with
  | nil => exact hs
  | cons hstep htr ih =>
    cases hstep with
    | submit slot hcb =>
      rw [hcb] at hs
      cases hs
    | complete hout =>
      exact absurd (List.mem_cons_self _ _) hnc

/-- C1: the completion signal starts set when the device is opened; along
every run of the submission handshake from that state, at most one
submitted-but-not-completed buffer exists (the final state's `outstanding`
is at most 1, and by applying this to every prefix, so is every
intermediate state's), and between any two submissions a completion
callback must have been observed — submission K+1 cannot hand its buffer to
the driver before the completion of submission K, because each submission
blocks until the signal is set and clears it, and only a completion sets
it. -/
theorem c1_submission_handshake (tr : List Action) (s' : DeviceState)
    (h : Trace initState tr s') :
    initState.cbDone = true ∧
    s'.outstanding ≤ 1 ∧
    ∀ l₁ k l₂ k' l₃,
      tr = l₁ ++ Action.submit k :: (l₂ ++ Action.submit k' :: l₃) →
      Action.complete ∈ l₂ := by
  refine ⟨rfl, ?_, ?_⟩
  · have hinv := trace_inv h (by simp [initState])
    rcases Bool.eq_false_or_eq_true s'.cbDone with hc | hc <;>
      rw [hc] at hinv <;> simp at hinv <;> omega
  · intro l₁ k l₂ k' l₃ htr
    subst htr
    obtain ⟨m1, t1, t2⟩ := trace_append h
    cases t2 with
    | cons hstep t3 =>
      obtain ⟨m3, t4, t5⟩ := trace_append t3
      cases t5 with
      | cons hstep2 t6 =>
        by_contra hnc
        have hm2 : ∀ m2, Step m1 (Action.submit k) m2 → m2.cbDone = false := by
          intro m2 hst
          cases hst with
          | submit slot hcb => rfl
        have hm3 : m3.cbDone = false :=
          trace_cbDone_false t4 hnc (hm2 _ hstep)
        cases hstep2 with
        | submit slot hcb =>
          rw [hm3] at hcb
          cases hcb

/-- C1 (witness): the three-action run submit, complete, submit is a valid
trace of the handshake, and the conclusions hold of it. -/
theorem c1_submission_handshake_witness :
    initState.cbDone = true ∧
    (⟨false, 1⟩ : DeviceState).outstanding ≤ 1 ∧
    ∀ l₁ k l₂ k' l₃,
      [Action.submit 0, Action.complete, Action.submit 1]
        = l₁ ++ Action.submit k :: (l₂ ++ Action.submit k' :: l₃) →
      Action.complete ∈ l₂ :=
  c1_submission_handshake
    [Action.submit 0, Action.complete, Action.submit 1] ⟨false, 1⟩
    (Trace.cons (Step.submit initState 0 rfl)
      (Trace.cons (Step.complete ⟨false, 1⟩ (by decide))
        (Trace.cons (Step.submit ⟨true, 0⟩ 1 rfl) (Trace.nil _))))

theorem playLoop_full (cap : Nat) (hcap : 0 < cap) (s : ByteStream) (b : Bool)
    (h : cap ≤ s.data.length - s.pos) :
    Player.playLoop cap hcap s b
      = (b, cap) :: Player.playLoop cap hcap ⟨s.data, s.pos + cap⟩ (!b) := by
  have hlen : ((s.data.drop s.pos).take cap).length = cap := by
    simp only [List.length_take, List.length_drop]
    omega
  rw [Player.playLoop, dif_pos hlen, hlen]

theorem playLoop_short (cap : Nat) (hcap : 0 < cap) (s : ByteStream)
    (b : Bool) (h : s.data.length - s.pos < cap) :
    Player.playLoop cap hcap s b = [(b, s.data.length - s.pos)] := by
  have hlen : ((s.data.drop s.pos).take cap).length
      = s.data.length - s.pos := by
    simp only [List.length_take, List.length_drop]
    omega
  have hne : ¬ ((s.data.drop s.pos).take cap).length = cap := by
    rw [hlen]
    omega
  rw [Player.playLoop, dif_neg hne, hlen]

theorem playLoop_eq_map (cap : Nat) (hcap : 0 < cap) :
    ∀ (n : Nat) (s : ByteStream) (b : Bool), s.data.length - s.pos = n →
    Player.playLoop cap hcap s b
      = (List.range (n / cap + 1)).map
          (fun i => (xor b (decide (i % 2 = 1)),
            if i < n / cap then cap else n % cap)) := by
  intro n
  induction n using Nat.strong_induction_on with
  | _ n ih =>
    intro s b hn
    by_cases hlt : n < cap
    · rw [playLoop_short cap hcap s b (by omega), hn]
      have hdiv : n / cap = 0 := Nat.div_eq_of_lt hlt
      have hmod : n % cap = n := Nat.mod_eq_of_lt hlt
      simp [hdiv, hmod, List.range_succ]
    · push_neg at hlt
      obtain ⟨m, rfl⟩ : ∃ m, n = cap + m := ⟨n - cap, by omega⟩
      rw [playLoop_full cap hcap s b (by omega)]
      have hrec := ih m (by omega) ⟨s.data, s.pos + cap⟩ (!b) (by simp; omega)
      rw [hrec]
      have hdiv : (cap + m) / cap = m / cap + 1 := by
        rw [Nat.add_comm cap m, Nat.add_div_right _ hcap]
      have hmod : (cap + m) % cap = m % cap := by
        rw [Nat.add_comm cap m, Nat.add_mod_right]
      rw [hdiv, hmod]
      conv_rhs => rw [List.range_succ_eq_map, List.map_cons, List.map_map]
      congr 1
      · simp
      · apply List.map_congr_left
        intro i hi
        simp only [Function.comp_apply, Nat.succ_eq_add_one]
        have hpar : (decide ((i + 1) % 2 = 1) : Bool)
            = !(decide (i % 2 = 1)) := by
          rcases Nat.mod_two_eq_zero_or_one i with h2 | h2 <;>
            simp [Nat.add_mod, h2]
        have hif : (i + 1 < m / cap + 1) ↔ (i < m / cap) :=
          Nat.succ_lt_succ_iff
        simp only [hpar, hif]
        cases b <;> cases hx : (decide (i % 2 = 1) : Bool) <;> simp [hx]

/-- C5: `Player::play` alternately fills and submits slot 0, slot 1,
slot 0, … starting with slot 0 (`buf_idx = false`): with `n` bytes left in
the source, the submissions are exactly one per fill, the i-th (0-based)
going to slot `i mod 2`, every submission before the last carrying a full
buffer of `cap` bytes and the last carrying the remaining `n mod cap` bytes
(the partial, zero-padded final block) — the loop ends exactly at the first
fill that is not full; in particular a source shorter than one buffer's
capacity gives exactly one fill+submit cycle. -/
theorem c5_play_rounds (cap : Nat) (hcap : 0 < cap) (s : ByteStream) :
    Player.play cap hcap s
      = (List.range ((s.data.length - s.pos) / cap + 1)).map
          (fun i => ((decide (i % 2 = 1) : Bool),
            if i < (s.data.length - s.pos) / cap then cap
            else (s.data.length - s.pos) % cap)) ∧
    (s.data.length - s.pos < cap →
      Player.play cap hcap s = [(false, s.data.length - s.pos)]) := by
  constructor
  · have h := playLoop_eq_map cap hcap (s.data.length - s.pos) s false rfl
    simpa [Player.play] using h
  · intro h
    exact playLoop_short cap hcap s false h

/-- C5 (witness): a 1-byte source with 2-byte buffers plays in exactly one
fill+submit cycle on slot 0. -/
theorem c5_play_rounds_witness :
    Player.play 2 (Nat.succ_pos 1) ⟨[7], 0⟩ = [(false, 1)] :=
  (c5_play_rounds 2 (Nat.succ_pos 1) ⟨[7], 0⟩).2 (by decide)

theorem findLoop_ten_zeros (fuel : Nat) :
    Player.findLoop (List.replicate 10 0) fmtMarker 6 fuel = none := by
  induction fuel with
  | zero => rfl
  | succ n ih =>
    have hstep : Player.findLoop (List.replicate 10 0) fmtMarker 6 (n + 1)
        = Player.findLoop (List.replicate 10 0) fmtMarker 6 n := rfl
    rw [hstep]
    exact ih

set_option maxRecDepth 10000 in
/-- C8 (code bug): on a 10-byte file with no `fmt ` marker the scan of
`Player::find_string_in_file` never reaches its NotFound error: after the
first pass the offset becomes 6 = file length - marker length, and every
later pass re-reads the same final 4 bytes and leaves the offset at 6, so
the loop runs forever (for every fuel the loop is still running), instead
of failing with a format error at end-of-stream as claimed.  The found
cases do work as claimed: the scan returns the offset just past the first
occurrence of the marker, including when the marker is split across the
512-byte chunk boundary (second conjunct: marker at offset 510 spanning the
first chunk's end, found via the rewind, result 514). -/
theorem c8_scan_divergence :
    (∀ fuel, Player.find_string_in_file (List.replicate 10 0) fuel = none) ∧
    Player.find_string_in_file
      ([82, 73, 70, 70] ++ fmtMarker ++ [16, 0, 0, 0]) 1
      = some (Except.ok 8) ∧
    Player.find_string_in_file (List.replicate 510 0 ++ fmtMarker) 2
      = some (Except.ok 514) := by
  refine ⟨?_, rfl, ?_⟩
  · intro fuel
    cases fuel with
    | zero => rfl
    | succ n =>
      have hstep : Player.find_string_in_file (List.replicate 10 0) (n + 1)
          = Player.findLoop (List.replicate 10 0) fmtMarker 6 n := rfl
      rw [hstep]
      exact findLoop_ten_zeros n
  · rfl

end Winaudio
